import Mathlib

/-!
Shallow embedding of the madsim simulated-filesystem core: the disk
registry (`FileSystemRuntime` in src/fs.rs), the per-node filesystem
(`FileSystem`), inodes and file handles (`INode`, `File`), and the
ambient-context lookup (`Handle::current` in src/madsim/src/lib.rs).

Modelling conventions:
  * bytes are `Nat`, `Vec<u8>` is `List Nat`, paths and socket addresses
    are `String`;
  * `Arc<INode>` sharing is modelled by a per-filesystem inode store
    indexed by inode id, so two handles alias an inode exactly when they
    hold the same id; likewise `Arc<FileSystem>` sharing is modelled by a
    disk store indexed by disk id inside the registry;
  * `HashMap` is an association list with first-match lookup (`mapGet`);
    insertion only ever happens for a key that is absent, so the map has
    no duplicate keys;
  * a Rust panic (usize underflow, out-of-order slice range, `todo!()`)
    is modelled as a `none` result; `Result<T, io::Error>` is modelled
    with `Except ErrorKind`;
  * mutation of an inode or a disk is modelled by returning the updated
    state; an operation that returns an error before touching the state
    returns the error alone, mirroring the control flow of the source.
-/

set_option autoImplicit false

namespace Madsim

abbrev Byte := Nat

abbrev Path := String

abbrev SocketAddr := String

/-- The `io::ErrorKind` values produced by src/fs.rs. -/
inductive ErrorKind where
  | notFound
  | permissionDenied
  deriving DecidableEq

/-- Association-list lookup with decidable key equality; models
`HashMap::get` / the lookup half of `HashMap::entry`. -/
def mapGet {α β : Type} [DecidableEq α] : List (α × β) → α → Option β
  | [], _ => none
  | (k, v) :: rest, a => if a = k then some v else mapGet rest a

/-- One node's filesystem (`struct FileSystem`): its address, the inode
heap (the targets of the `Arc<INode>` pointers), and the path → inode-id
map (`fs: Mutex<HashMap<PathBuf, Arc<INode>>>`). -/
structure FsState where
  addr : SocketAddr
  store : List (List Byte)
  dir : List (Path × Nat)
  deriving DecidableEq

/-- A file handle (`struct File`): the id of the shared inode plus the
fixed write permission. -/
structure File where
  inode : Nat
  can_write : Bool
  deriving DecidableEq

/-- `FileSystem::new(addr)`: an empty filesystem for one node. -/
def FileSystem.new (addr : SocketAddr) : FsState :=
  { addr := addr, store := [], dir := [] }

/-- Content of inode `i` (dereferencing its `Arc<INode>`; every handle
produced by `open`/`create` holds an in-bounds id). -/
def FsState.data (s : FsState) (i : Nat) : List Byte :=
  s.store.getD i []

/-- Replace the content of inode `i` (a write through its `RwLock`). -/
def FsState.setData (s : FsState) (i : Nat) (d : List Byte) : FsState :=
  { s with store := s.store.set i d }

/-- `FileSystem::open` (named `openFile` because `open` is a Lean
keyword): look up the exact path, fail with NotFound when absent, and
return a read-only handle on the existing inode.  The function reads the
map and returns no updated state: it creates nothing. -/
def FsState.openFile (s : FsState) (p : Path) : Except ErrorKind File :=
  match mapGet s.dir p with
  | none => .error .notFound
  | some i => .ok { inode := i, can_write := false }

/-- `FileSystem::create`: `fs.entry(path).or_insert_with(INode::new)`,
then a read-write handle on the resulting inode.  A fresh inode is
appended to the store with empty content; an existing path keeps its
inode and content untouched. -/
def FsState.create (s : FsState) (p : Path) : FsState × File :=
  match mapGet s.dir p with
  | some i => (s, { inode := i, can_write := true })
  | none =>
      ({ s with
          store := s.store ++ [[]],
          dir := (p, s.store.length) :: s.dir },
       { inode := s.store.length, can_write := true })

/-- `File::read_at`: with `data` the inode content, the source computes
`end = data.len().min(offset + buf.len())` and `len = end - offset`,
copies `data[offset..end]` into `buf[..len]` and returns `len`.  When
`offset > data.len()` the subtraction `end - offset` underflows usize
and the call panics (`none`).  Otherwise the result is the updated
buffer (front overwritten, tail untouched) and the returned count. -/
def File.read_at (f : File) (s : FsState) (buf : List Byte) (offset : Nat) :
    Option (List Byte × Nat) :=
  let data := s.data f.inode
  let e := min data.length (offset + buf.length)
  if offset ≤ e then
    some ((data.drop offset).take (e - offset) ++ buf.drop (e - offset), e - offset)
  else
    none

/-- `File::write_all_at`: a read-only handle fails immediately with
PermissionDenied, before the inode is touched.  Otherwise, with `data`
the inode content, the source computes `end = data.len().min(offset +
buf.len())` and `len = end - offset`, overwrites `data[offset..end]`
with `buf[..len]` and appends `buf[len..]`.  When `offset > data.len()`
the subtraction underflows usize and the call panics (`none`) with the
inode unchanged.  A successful write returns the updated state. -/
def File.write_all_at (f : File) (s : FsState) (buf : List Byte) (offset : Nat) :
    Option (Except ErrorKind FsState) :=
  if f.can_write = false then
    some (.error .permissionDenied)
  else
    let data := s.data f.inode
    let e := min data.length (offset + buf.length)
    if offset ≤ e then
      some (.ok (s.setData f.inode
        (data.take offset ++ buf.take (e - offset) ++ data.drop e ++ buf.drop (e - offset))))
    else
      none

/-- `Vec::resize(n, 0)`: truncate to `n` elements, or extend with zeros
up to `n` elements. -/
def listResize (l : List Byte) (n : Nat) : List Byte :=
  if n ≤ l.length then l.take n else l ++ List.replicate (n - l.length) 0

/-- `File::set_len`: resize the inode content to `size` bytes, padding
with zeros; there is no permission check and the result is always
`Ok(())`. -/
def File.set_len (f : File) (s : FsState) (size : Nat) :
    FsState × Except ErrorKind Unit :=
  (s.setData f.inode (listResize (s.data f.inode) size), .ok ())

/-- `FileSystemRuntime`: the disk store (the targets of the
`Arc<FileSystem>` pointers, indexed by disk id) and the address →
disk-id map (`handles: Mutex<HashMap<SocketAddr, FileSystemHandle>>`). -/
structure Registry where
  disks : List FsState
  handles : List (SocketAddr × Nat)
  deriving DecidableEq

/-- `FileSystemRuntime::new`: an empty registry. -/
def Registry.new : Registry :=
  { disks := [], handles := [] }

/-- `FileSystemRuntime::handle`:
`handles.entry(addr).or_insert_with(FileSystem::new(addr)).clone()`.
Returns the (possibly grown) registry and the id of the disk bound to
`addr`; a first access appends a fresh empty disk. -/
def Registry.handle (r : Registry) (a : SocketAddr) : Registry × Nat :=
  match mapGet r.handles a with
  | some i => (r, i)
  | none =>
      ({ disks := r.disks ++ [FileSystem.new a],
         handles := (a, r.disks.length) :: r.handles },
       r.disks.length)

/-- `FileSystemRuntime::power_fail`: the body is `todo!()`, which panics
unconditionally, so the call never produces a normal result (`none`). -/
def Registry.power_fail (_ : Registry) (_ : SocketAddr) : Option Unit :=
  none

/-- Mutation of the disk with id `i` through the `Arc` returned by
`Registry.handle`: the update `g` lands only on that disk's slot. -/
def Registry.withDisk (r : Registry) (i : Nat) (g : FsState → FsState) : Registry :=
  { r with disks := r.disks.set i (g (r.disks.getD i (FileSystem.new ""))) }

/-- Invariant maintained by the registry: addresses are distinct, disk
ids are distinct, and every registered id is in bounds. -/
def Registry.WF (r : Registry) : Prop :=
  (r.handles.map Prod.fst).Nodup ∧ (r.handles.map Prod.snd).Nodup ∧
    ∀ q ∈ r.handles, q.2 < r.disks.length

/-- `struct Handle`: the kernel-wide capability bundle.  Only the
filesystem component is modelled; the other fields (rand, time, task,
net) belong to out-of-scope collaborator modules. -/
structure Handle where
  fs : Registry
  deriving DecidableEq

/-- Modelled from the spec: the ambient-context cell of the `context`
module (src/madsim/src/lib.rs declares `mod context;` but the module's
source file is absent from the sources).  Per the spec the cell is a
scoped task-local holding the current `Handle`, set for the duration of
a drive (`block_on`) call and cleared on every exit, so it is `some`
exactly while execution is inside drive; `context::current()` reads the
cell and yields `None` outside. -/
def context.current (ambient : Option Handle) : Option Handle :=
  ambient

/-- `Handle::current`: `context::current().expect("no madsim context")`.
`expect` on `None` panics (modelled `none`); on `Some h` it returns
`h`. -/
def Handle.current (ambient : Option Handle) : Option Handle :=
  match context.current ambient with
  | some h => some h
  | none => none

/-! ### Helper lemmas -/

theorem mapGet_mem {α β : Type} [DecidableEq α] {l : List (α × β)} {a : α} {b : β}
    (h : mapGet l a = some b) : (a, b) ∈ l := by
  induction l with
  | nil => simp [mapGet] at h
  | cons q rest ih =>
      obtain ⟨k, v⟩ := q
      by_cases hk : a = k
      · subst hk
        simp [mapGet] at h
        simp [h]
      · simp [mapGet, hk] at h
        exact List.mem_cons_of_mem _ (ih h)

theorem data_setData_self (s : FsState) (i : Nat) (d : List Byte)
    (h : i < s.store.length) : (s.setData i d).data i = d := by
  simp [FsState.data, FsState.setData, List.getElem?_set_self h]

theorem length_listResize (l : List Byte) (n : Nat) :
    (listResize l n).length = n := by
  unfold listResize
  split
  · simp
    omega
  · simp
    omega

theorem write_all_at_eq_ok (f : File) (s : FsState) (buf : List Byte) (offset : Nat)
    (hw : f.can_write = true)
    (h : offset ≤ min (s.data f.inode).length (offset + buf.length)) :
    f.write_all_at s buf offset =
      some (Except.ok (s.setData f.inode
        ((s.data f.inode).take offset ++
          buf.take (min (s.data f.inode).length (offset + buf.length) - offset) ++
          (s.data f.inode).drop (min (s.data f.inode).length (offset + buf.length)) ++
          buf.drop (min (s.data f.inode).length (offset + buf.length) - offset)))) := by
  simp only [File.write_all_at]
  rw [if_neg (by simp [hw]), if_pos h]

theorem write_all_at_eq_panic (f : File) (s : FsState) (buf : List Byte) (offset : Nat)
    (hw : f.can_write = true)
    (h : ¬ offset ≤ min (s.data f.inode).length (offset + buf.length)) :
    f.write_all_at s buf offset = none := by
  simp only [File.write_all_at]
  rw [if_neg (by simp [hw]), if_neg h]

/-! ### Claims -/

/-- Claim C1: the spec says `read_at(buffer, offset)` copies
`min(buffer.len(), max(0, content.len() - offset))` bytes, returns that
count (0 whenever offset ≥ content length), and never fails for
non-negative offsets.  The code violates this for every offset strictly
beyond the content length: with content b"hello" (5 bytes) and a 1-byte
buffer at offset 6, the claim demands 0 bytes copied and 0 returned, but
the source computes `end = 5` and `len = end - offset = 5 - 6`, an usize
underflow, and the call panics (modelled `none`). -/
theorem read_at_panics_past_end :
    File.read_at { inode := 0, can_write := false }
      { addr := "10.0.0.1:1", store := [[104, 101, 108, 108, 111]], dir := [("file", 0)] }
      [0] 6 = none := by
  rfl

/-- Claim C3: every handle returned by `open` is read-only, and
`write_all_at` on it fails with PermissionDenied for every payload and
every offset; the permission check precedes the inode access in the
source, so the error carries no updated state: the content is
untouched. -/
theorem open_handle_write_denied (s : FsState) (p : Path) (f : File)
    (h : s.openFile p = Except.ok f) (buf : List Byte) (offset : Nat) :
    f.write_all_at s buf offset = some (Except.error ErrorKind.permissionDenied) := by
  unfold FsState.openFile at h
  cases hm : mapGet s.dir p with
  | none => rw [hm] at h; cases h
  | some i =>
      rw [hm] at h
      cases h
      simp [File.write_all_at]

theorem open_handle_write_denied_witness :
    (FsState.openFile
        { addr := "10.0.0.1:1", store := [[104, 101, 108, 108, 111]], dir := [("file", 0)] }
        "file" = Except.ok { inode := 0, can_write := false }) ∧
    File.write_all_at { inode := 0, can_write := false }
      { addr := "10.0.0.1:1", store := [[104, 101, 108, 108, 111]], dir := [("file", 0)] }
      [103, 103] 0 = some (Except.error ErrorKind.permissionDenied) :=
  ⟨by rfl, open_handle_write_denied _ "file" _ (by rfl) [103, 103] 0⟩

/-- Claim C7: `open` on a path with no inode fails with NotFound (on a
fresh disk, any open before the first create fails this way), and it
creates nothing: `openFile` only reads the map and returns no updated
state.  When the inode exists, open succeeds and the handle is
read-only. -/
theorem open_spec (s : FsState) (p : Path) :
    (mapGet s.dir p = none → s.openFile p = Except.error ErrorKind.notFound) ∧
    (∀ i, mapGet s.dir p = some i →
      s.openFile p = Except.ok { inode := i, can_write := false }) ∧
    ∀ a, (FileSystem.new a).openFile p = Except.error ErrorKind.notFound := by
  refine ⟨?_, ?_, ?_⟩
  · intro hm
    simp [FsState.openFile, hm]
  · intro i hm
    simp [FsState.openFile, hm]
  · intro a
    rfl

theorem open_spec_witness :
    mapGet (FileSystem.new "10.0.0.1:1").dir "file" = none ∧
    (FileSystem.new "10.0.0.1:1").openFile "file" = Except.error ErrorKind.notFound :=
  ⟨rfl, (open_spec (FileSystem.new "10.0.0.1:1") "file").1 rfl⟩

/-- Claim C8: `power_fail` is `todo!()`: for every registry and every
address the call panics unconditionally (modelled `none`), so it is
fatal to the caller and never returns a normal result; in particular it
does not silently do nothing. -/
theorem power_fail_never_returns (r : Registry) (a : SocketAddr) :
    r.power_fail a = none := rfl

/-- Claim C9: `Handle::current` is
`context::current().expect("no madsim context")`; outside a drive
(`block_on`) call the ambient context is empty, so the call panics
(NoActiveContext, modelled `none`) and never returns a stale or default
handle; inside drive it returns exactly the installed handle. -/
theorem current_without_context_fatal :
    Handle.current none = none ∧ ∀ h : Handle, Handle.current (some h) = some h := by
  exact ⟨rfl, fun _ => rfl⟩

/-- Claim C4: `set_len(n)` always succeeds (`Ok(())`) and leaves the
inode content at exactly `n` bytes: when `n` is at most the current
length the content is truncated to its first `n` bytes, and when `n`
exceeds it the content is extended with zero bytes (`Vec::resize(n,
0)`).  The hypothesis states that the handle's inode id is in bounds,
which holds for every handle produced by open/create. -/
theorem set_len_resizes (s : FsState) (f : File) (n : Nat)
    (h : f.inode < s.store.length) :
    (f.set_len s n).2 = Except.ok () ∧
    (((f.set_len s n).1).data f.inode).length = n ∧
    (n ≤ (s.data f.inode).length →
      ((f.set_len s n).1).data f.inode = (s.data f.inode).take n) ∧
    ((s.data f.inode).length < n →
      ((f.set_len s n).1).data f.inode =
        s.data f.inode ++ List.replicate (n - (s.data f.inode).length) 0) := by
  have hd : ((f.set_len s n).1).data f.inode = listResize (s.data f.inode) n :=
    data_setData_self s f.inode _ h
  refine ⟨rfl, ?_, ?_, ?_⟩
  · rw [hd, length_listResize]
  · intro hle
    rw [hd]
    unfold listResize
    rw [if_pos hle]
  · intro hlt
    rw [hd]
    unfold listResize
    rw [if_neg (by omega)]

theorem set_len_resizes_witness :
    ((0 : Nat) <
      (FsState.store { addr := "10.0.0.1:1", store := [[1, 2, 3]], dir := [("f", 0)] }).length) ∧
    ((File.set_len { inode := 0, can_write := false }
        { addr := "10.0.0.1:1", store := [[1, 2, 3]], dir := [("f", 0)] } 5).2 = Except.ok () ∧
      ((File.set_len { inode := 0, can_write := false }
          { addr := "10.0.0.1:1", store := [[1, 2, 3]], dir := [("f", 0)] } 5).1.data 0).length = 5 ∧
      ((5 : Nat) ≤ ([1, 2, 3] : List Byte).length →
        (File.set_len { inode := 0, can_write := false }
            { addr := "10.0.0.1:1", store := [[1, 2, 3]], dir := [("f", 0)] } 5).1.data 0 =
          ([1, 2, 3] : List Byte).take 5) ∧
      (([1, 2, 3] : List Byte).length < 5 →
        (File.set_len { inode := 0, can_write := false }
            { addr := "10.0.0.1:1", store := [[1, 2, 3]], dir := [("f", 0)] } 5).1.data 0 =
          [1, 2, 3] ++ List.replicate (5 - ([1, 2, 3] : List Byte).length) 0)) :=
  ⟨by decide,
   set_len_resizes { addr := "10.0.0.1:1", store := [[1, 2, 3]], dir := [("f", 0)] }
     { inode := 0, can_write := false } 5 (by decide)⟩

/-- Claim C5: `create` is idempotent: repeating `create p` returns the
very same state (no truncation, no content change, no duplicate inode)
and the very same handle, so both resolve to the same inode and a write
through either is a write through the other; and the handle returned by
create is read-write. -/
theorem create_idempotent (s : FsState) (p : Path) :
    (s.create p).1.create p = s.create p ∧
    ((s.create p).2).can_write = true := by
  cases hm : mapGet s.dir p with
  | some i => simp [FsState.create, hm]
  | none => simp [FsState.create, hm, mapGet]

/-- Claim C10: `set_len` enforces no permission: a read-only handle
obtained from `open` (can_write = false) can still resize the shared
inode; the call returns `Ok(())` and the content observed through the
shared inode — the same inode `create` on that path resolves to — now
has exactly `n` bytes. -/
theorem set_len_ignores_read_only (s : FsState) (p : Path) (f : File) (n : Nat)
    (h1 : s.openFile p = Except.ok f) (h2 : f.inode < s.store.length) :
    f.can_write = false ∧
    (f.set_len s n).2 = Except.ok () ∧
    (((f.set_len s n).1).data f.inode).length = n ∧
    ((s.create p).2).inode = f.inode := by
  unfold FsState.openFile at h1
  cases hm : mapGet s.dir p with
  | none => rw [hm] at h1; cases h1
  | some i =>
      rw [hm] at h1
      cases h1
      refine ⟨rfl, rfl, ?_, ?_⟩
      · show ((s.setData i (listResize (s.data i) n)).data i).length = n
        rw [data_setData_self s i _ h2, length_listResize]
      · simp [FsState.create, hm]

theorem set_len_ignores_read_only_witness :
    (FsState.openFile { addr := "10.0.0.1:1", store := [[1, 2]], dir := [("f", 0)] } "f" =
      Except.ok { inode := 0, can_write := false }) ∧
    ((0 : Nat) <
      (FsState.store { addr := "10.0.0.1:1", store := [[1, 2]], dir := [("f", 0)] }).length) ∧
    (({ inode := 0, can_write := false } : File).can_write = false ∧
      (File.set_len { inode := 0, can_write := false }
        { addr := "10.0.0.1:1", store := [[1, 2]], dir := [("f", 0)] } 7).2 = Except.ok () ∧
      ((File.set_len { inode := 0, can_write := false }
          { addr := "10.0.0.1:1", store := [[1, 2]], dir := [("f", 0)] } 7).1.data 0).length = 7 ∧
      ((FsState.create { addr := "10.0.0.1:1", store := [[1, 2]], dir := [("f", 0)] } "f").2).inode = 0) :=
  ⟨by rfl, by decide,
   set_len_ignores_read_only { addr := "10.0.0.1:1", store := [[1, 2]], dir := [("f", 0)] }
     "f" { inode := 0, can_write := false } 7 (by rfl) (by decide)⟩

/-- Claim C2, counterexample: on a freshly created empty file, a
read-write write of one byte at offset 1 — strictly beyond the current
length 0 — does not return successfully as the claim states: the source
computes `end = min(0, 2) = 0` and `len = end - offset = 0 - 1`, an
usize underflow, so the call panics (modelled `none`) and nothing is
appended. -/
theorem write_past_end_panics :
    File.write_all_at { inode := 0, can_write := true }
      { addr := "10.0.0.1:1", store := [[]], dir := [("file", 0)] }
      [97] 1 = none := by
  rfl

/-- Claim C2 (amended): for a read-write handle, a write at an offset at
most the current length returns Ok and yields content that keeps the
prefix before the offset, holds exactly the payload on
`[offset, offset + len)`, keeps any old bytes past `offset + len`, and
has length `max(old length, offset + len)` — the existing overlap is
overwritten and the remainder appended, growing the file; but for every
offset strictly beyond the current length the call panics on usize
underflow (`len = end - offset` with `end = current length < offset`)
instead of returning successfully, and nothing is appended. -/
theorem write_all_at_spec (s : FsState) (f : File) (buf : List Byte) (offset : Nat)
    (hw : f.can_write = true) :
    (offset ≤ (s.data f.inode).length →
      ∃ nd, f.write_all_at s buf offset = some (Except.ok (s.setData f.inode nd)) ∧
        nd.length = max (s.data f.inode).length (offset + buf.length) ∧
        nd.take offset = (s.data f.inode).take offset ∧
        (nd.drop offset).take buf.length = buf ∧
        nd.drop (offset + buf.length) = (s.data f.inode).drop (offset + buf.length)) ∧
    ((s.data f.inode).length < offset → f.write_all_at s buf offset = none) := by
  constructor
  · intro hle
    have htl : ((s.data f.inode).take offset).length = offset := by
      rw [List.length_take]
      omega
    rcases Nat.le_total (offset + buf.length) (s.data f.inode).length with hA | hB
    · have hmin : min (s.data f.inode).length (offset + buf.length) = offset + buf.length :=
        Nat.min_eq_right hA
      have heq := write_all_at_eq_ok f s buf offset hw (by omega)
      rw [hmin, Nat.add_sub_cancel_left, List.take_length, List.drop_length,
        List.append_nil] at heq
      refine ⟨_, heq, ?_, ?_, ?_, ?_⟩
      · simp [List.length_take, List.length_drop]
        omega
      · rw [List.append_assoc]
        exact List.take_left' htl
      · rw [List.append_assoc, List.drop_left' htl]
        exact List.take_left' rfl
      · have h2 : ((s.data f.inode).take offset ++ buf).length = offset + buf.length := by
          rw [List.length_append, htl]
        exact List.drop_left' h2
    · have hmin : min (s.data f.inode).length (offset + buf.length) = (s.data f.inode).length :=
        Nat.min_eq_left hB
      have heq := write_all_at_eq_ok f s buf offset hw (by omega)
      rw [hmin, List.drop_length, List.append_nil, List.append_assoc,
        List.take_append_drop] at heq
      refine ⟨_, heq, ?_, ?_, ?_, ?_⟩
      · rw [List.length_append, htl]
        omega
      · exact List.take_left' htl
      · rw [List.drop_left' htl]
        exact List.take_length buf
      · rw [List.drop_eq_nil_of_le (by rw [List.length_append, htl]),
          List.drop_eq_nil_of_le hB]
  · intro hlt
    exact write_all_at_eq_panic f s buf offset hw (by omega)

theorem write_all_at_spec_witness :
    (({ inode := 0, can_write := true } : File).can_write = true) ∧
    (((1 : Nat) ≤
        (FsState.data { addr := "10.0.0.1:1", store := [[104, 101]], dir := [("f", 0)] } 0).length →
      ∃ nd, File.write_all_at { inode := 0, can_write := true }
          { addr := "10.0.0.1:1", store := [[104, 101]], dir := [("f", 0)] } [97, 98] 1 =
          some (Except.ok (FsState.setData
            { addr := "10.0.0.1:1", store := [[104, 101]], dir := [("f", 0)] } 0 nd)) ∧
        nd.length =
          max (FsState.data { addr := "10.0.0.1:1", store := [[104, 101]], dir := [("f", 0)] }
            0).length (1 + 2) ∧
        nd.take 1 =
          (FsState.data { addr := "10.0.0.1:1", store := [[104, 101]], dir := [("f", 0)] }
            0).take 1 ∧
        (nd.drop 1).take 2 = [97, 98] ∧
        nd.drop (1 + 2) =
          (FsState.data { addr := "10.0.0.1:1", store := [[104, 101]], dir := [("f", 0)] }
            0).drop (1 + 2)) ∧
      ((FsState.data { addr := "10.0.0.1:1", store := [[104, 101]], dir := [("f", 0)] }
          0).length < 1 →
        File.write_all_at { inode := 0, can_write := true }
          { addr := "10.0.0.1:1", store := [[104, 101]], dir := [("f", 0)] } [97, 98] 1 = none)) :=
  ⟨rfl,
   write_all_at_spec { addr := "10.0.0.1:1", store := [[104, 101]], dir := [("f", 0)] }
     { inode := 0, can_write := true } [97, 98] 1 rfl⟩

/-- Claim C6: on a well-formed registry, `handle` is idempotent — a
second call with the same address returns the identical registry and
disk id; a first access binds the address to a freshly created empty
disk (`FileSystem::new`, whose path map is empty); for distinct
addresses the two calls resolve to distinct disk ids, and a mutation of
the first disk through its id leaves the second disk untouched, so the
two disks share no paths and their maps are independent. -/
theorem registry_handle_spec (r : Registry) (A B : SocketAddr)
    (hwf : r.WF) (hne : A ≠ B) :
    (r.handle A).1.handle A = r.handle A ∧
    (mapGet r.handles A = none →
      (r.handle A).1.disks[(r.handle A).2]? = some (FileSystem.new A) ∧
      (FileSystem.new A).dir = []) ∧
    (r.handle A).2 ≠ ((r.handle A).1.handle B).2 ∧
    ∀ g : FsState → FsState,
      ((((r.handle A).1.handle B).1.withDisk (r.handle A).2 g).disks[(((r.handle A).1.handle B).2)]?) =
        ((((r.handle A).1.handle B).1.disks[(((r.handle A).1.handle B).2)]?)) := by
  obtain ⟨hn1, hn2, hbound⟩ := hwf
  have hBA : ¬ (B = A) := fun hx => hne hx.symm
  have hIJ : (r.handle A).2 ≠ ((r.handle A).1.handle B).2 := by
    cases hmA : mapGet r.handles A with
    | some i =>
        have memA := mapGet_mem hmA
        cases hmB : mapGet r.handles B with
        | some j =>
            have memB := mapGet_mem hmB
            simp only [Registry.handle, hmA, hmB]
            intro hij
            exact hne (congrArg Prod.fst (List.inj_on_of_nodup_map hn2 memA memB hij))
        | none =>
            have hi := hbound _ memA
            simp only [Registry.handle, hmA, hmB]
            omega
    | none =>
        cases hmB : mapGet r.handles B with
        | some j =>
            have memB := mapGet_mem hmB
            have hj := hbound _ memB
            simp only [Registry.handle, hmA, mapGet, if_neg hBA, hmB]
            omega
        | none =>
            simp only [Registry.handle, hmA, mapGet, if_neg hBA, hmB, List.length_append,
              List.length_cons, List.length_nil]
            omega
  refine ⟨?_, ?_, hIJ, ?_⟩
  · cases hmA : mapGet r.handles A with
    | some i => simp [Registry.handle, hmA]
    | none => simp [Registry.handle, hmA, mapGet]
  · intro hmA
    refine ⟨?_, rfl⟩
    simp only [Registry.handle, hmA]
    exact List.getElem?_concat_length _ _
  · intro g
    simp only [Registry.withDisk]
    exact List.getElem?_set_ne hIJ

theorem registry_handle_spec_witness :
    Registry.WF Registry.new ∧ ("10.0.0.1:1" : SocketAddr) ≠ "10.0.0.2:1" ∧
    ((Registry.new.handle "10.0.0.1:1").1.handle "10.0.0.1:1" =
        Registry.new.handle "10.0.0.1:1" ∧
      (mapGet Registry.new.handles "10.0.0.1:1" = none →
        (Registry.new.handle "10.0.0.1:1").1.disks[(Registry.new.handle "10.0.0.1:1").2]? =
          some (FileSystem.new "10.0.0.1:1") ∧
        (FileSystem.new "10.0.0.1:1").dir = []) ∧
      (Registry.new.handle "10.0.0.1:1").2 ≠
        ((Registry.new.handle "10.0.0.1:1").1.handle "10.0.0.2:1").2 ∧
      ∀ g : FsState → FsState,
        ((((Registry.new.handle "10.0.0.1:1").1.handle "10.0.0.2:1").1.withDisk
            (Registry.new.handle "10.0.0.1:1").2 g).disks[((((Registry.new.handle
              "10.0.0.1:1").1.handle "10.0.0.2:1").2))]?) =
          (((Registry.new.handle "10.0.0.1:1").1.handle
            "10.0.0.2:1").1.disks[((((Registry.new.handle "10.0.0.1:1").1.handle
              "10.0.0.2:1").2))]?)) :=
  ⟨⟨List.nodup_nil, List.nodup_nil, by simp [Registry.new]⟩, by decide,
   registry_handle_spec Registry.new "10.0.0.1:1" "10.0.0.2:1"
     ⟨List.nodup_nil, List.nodup_nil, by simp [Registry.new]⟩ (by decide)⟩

end Madsim
